import Mathlib

/-!
# SmrtObjI2C: the PCA9548A bus multiplexer and the ADS1100 converter

A shallow embedding of `libraries/SmrtObjI2C/src/devices/PCA9548A.cpp` and of
the members of `libraries/SmrtObjI2C/src/sensors/ADS1100.h` that read and
return the converter's last value.

* `uint8_t` values are natural numbers; every place where the C++ code
  truncates to eight bits carries an explicit `% 256`.
* The I2C transport (`I2CInterface::readAllBytes` / `writeAllBytes`) is a
  parameter: a `Transport` answers every transaction as a function of the
  transactions already issued, so "the first write fails and the second
  succeeds" is just one particular transport.
* Every member function takes the device and the log of bus transactions
  issued so far and returns its boolean result, the device afterwards and the
  log afterwards.
-/

namespace smrtobj

/-! ## The bus -/

/-- One transaction issued on the bus. -/
inductive BusOp where
  /-- A request to read `len` bytes from the chip at `addr`. -/
  | readReq (addr : Nat) (len : Nat)
  /-- A write of the bytes `data` to the chip at `addr`. -/
  | writeReq (addr : Nat) (data : List Nat)
  deriving DecidableEq, Repr

/-- The answer of the transport to a read: the transfer count it reports and
the bytes it delivered into the caller's buffer. -/
structure ReadReply where
  count : Int
  data : List Nat
  deriving DecidableEq, Repr

/-- The external bus transport.  `writeAllBytes hist addr data` is the count
reported for writing `data` to `addr` after the transactions `hist`;
`readAllBytes hist addr len` is the reply to a read of `len` bytes. -/
structure Transport where
  readAllBytes : List BusOp → Nat → Nat → ReadReply
  writeAllBytes : List BusOp → Nat → List Nat → Int

/-! ## The device -/

/-- The multiplexer object: the bus address held by the `I2CInterface` base
and the shadow control register `m_ctrl_reg`. -/
structure PCA9548A where
  m_addr : Nat
  m_ctrl_reg : Nat
  deriving DecidableEq, Repr

/-- The result of a member function: its return value, the object afterwards
and the bus log afterwards (oldest transaction first). -/
structure Outcome where
  ret : Bool
  dev : PCA9548A
  log : List BusOp
  deriving DecidableEq, Repr

namespace PCA9548A

/-- Modelled from the spec: the constant `DEVICE_ADDRESS` of `PCA9548A.h`
(the header is not part of the sources), "default 0x70 if out of range". -/
def DEVICE_ADDRESS : Nat := 0x70

/-- The accessor `I2CInterface::address()`. -/
def address (d : PCA9548A) : Nat := d.m_addr

/-- The setter `I2CInterface::setDeviceAddress(addr)`: no range validation in
the base class. -/
def setDeviceAddress (d : PCA9548A) (addr : Nat) : PCA9548A :=
  { d with m_addr := addr }

/-- The constructor `PCA9548A::PCA9548A()`. -/
def ctorDefault : PCA9548A :=
  { m_addr := DEVICE_ADDRESS, m_ctrl_reg := 0 }

/-- The constructor `PCA9548A::PCA9548A(uint8_t addr)` (the class name itself
is taken by the structure): the register starts at 0, an address outside
`0x70..0x77` is replaced by `DEVICE_ADDRESS`. -/
def ctor (addr : Nat) : PCA9548A :=
  let d : PCA9548A := { m_addr := 0, m_ctrl_reg := 0 }
  let addr := if addr < 0x70 ∨ addr > 0x77 then DEVICE_ADDRESS else addr
  setDeviceAddress d addr

/-- The one-byte buffer `&m_ctrl_reg` after a read: the first delivered byte
when there is one, the old content otherwise. -/
def storeByte (old : Nat) (data : List Nat) : Nat :=
  match data with
  | [] => old
  | b :: _ => b % 256

/-- The member `PCA9548A::read()`:
`return ( readAllBytes(address(), 1, &m_ctrl_reg) > 0 );` -/
def read (t : Transport) (d : PCA9548A) (log : List BusOp) : Outcome :=
  let reply := t.readAllBytes log d.address 1
  { ret := decide (reply.count > 0)
    dev := { d with m_ctrl_reg := storeByte d.m_ctrl_reg reply.data }
    log := log ++ [BusOp.readReq d.address 1] }

/-- The member `PCA9548A::isConnected()`: `return read();` -/
def isConnected (t : Transport) (d : PCA9548A) (log : List BusOp) : Outcome :=
  read t d log

/-- The member `PCA9548A::write()`:
`return ( writeAllBytes(address(), 1, &m_ctrl_reg) > 0 );` -/
def write (t : Transport) (d : PCA9548A) (log : List BusOp) : Outcome :=
  { ret := decide (t.writeAllBytes log d.address [d.m_ctrl_reg] > 0)
    dev := d
    log := log ++ [BusOp.writeReq d.address [d.m_ctrl_reg]] }

/-- The member `PCA9548A::setChannel(uint8_t n, bool en)`.  `mask <<= n`
stores `1 << n` back into a `uint8_t`, hence `% 256`; `~mask` is the
complement of the promoted `int`, of which only the low eight bits meet the
eight-bit register, hence `255 - mask`. -/
def setChannel (t : Transport) (d : PCA9548A) (log : List BusOp) (n : Nat) (en : Bool) :
    Outcome :=
  if n > 0x08 then
    { ret := false, dev := d, log := log }
  else
    let mask := (1 <<< n) % 256
    let reg :=
      if en then (d.m_ctrl_reg ||| mask) % 256
      else (d.m_ctrl_reg &&& (255 - mask)) % 256
    write t { d with m_ctrl_reg := reg } log

/-- Modelled from the spec: the member `disableAll()` of `PCA9548A.h` (the
header is not part of the sources), "`write()` performed with the shadow
register forced to 0 beforehand". -/
def disableAll (t : Transport) (d : PCA9548A) (log : List BusOp) : Outcome :=
  write t { d with m_ctrl_reg := 0 } log

/-- The member `PCA9548A::select(uint8_t n)`. -/
def select (t : Transport) (d : PCA9548A) (log : List BusOp) (n : Nat) : Outcome :=
  let r := disableAll t d log
  if !r.ret then
    { ret := false, dev := r.dev, log := r.log }
  else
    setChannel t r.dev r.log n true

/-- The copy constructor `PCA9548A::PCA9548A(const PCA9548A &d)`: the base
`I2CInterface(d)` duplicates the bound address, the body copies
`m_ctrl_reg`. -/
def ctorCopy (d : PCA9548A) : PCA9548A :=
  { m_addr := d.m_addr, m_ctrl_reg := d.m_ctrl_reg }

/-- The member `PCA9548A::operator=(const PCA9548A &d)`:
`I2CInterface::operator=(d)` rebinds the address, then `m_ctrl_reg` is
copied; the result is `*this`. -/
def assign (self d : PCA9548A) : PCA9548A :=
  let self := { self with m_addr := d.m_addr }
  { self with m_ctrl_reg := d.m_ctrl_reg }

/-- The calls `setChannel(n, en)` for every `n` of a list of channels, one
after the other; the result is true when every call returned true. -/
def setChannelEach (t : Transport) (en : Bool) :
    List Nat → PCA9548A → List BusOp → Outcome
  | [], d, log => { ret := true, dev := d, log := log }
  | n :: ns, d, log =>
    let o := setChannel t d log n en
    let rest := setChannelEach t en ns o.dev o.log
    { ret := o.ret && rest.ret, dev := rest.dev, log := rest.log }

/-- The spec's other reading of `disableAll()`: "`setChannel` for every bit
turned off", eight individual bit operations, channels 0 to 7. -/
def disableAllBitwise (t : Transport) (d : PCA9548A) (log : List BusOp) : Outcome :=
  setChannelEach t false [0, 1, 2, 3, 4, 5, 6, 7] d log

end PCA9548A

/-! ## Two objects side by side -/

/-- Two multiplexer objects in memory, each with its own fields: an
`original` and a `copy` of it. -/
structure Objects where
  original : PCA9548A
  copy : PCA9548A
  deriving DecidableEq, Repr

/-- The result of a member call when two objects are in memory. -/
structure ObjectsOutcome where
  ret : Bool
  objs : Objects
  log : List BusOp
  deriving DecidableEq, Repr

/-- The declaration `PCA9548A copy(original);`. -/
def copyConstruct (d : PCA9548A) : Objects :=
  { original := d, copy := PCA9548A.ctorCopy d }

/-- A member call made on the object `copy`: the call sees and updates the
fields of `copy` only. -/
def onCopy (call : PCA9548A → List BusOp → Outcome) (s : Objects) (log : List BusOp) :
    ObjectsOutcome :=
  let o := call s.copy log
  { ret := o.ret, objs := { s with copy := o.dev }, log := o.log }

/-! ## The ADS1100 converter -/

/-- The converter object of `ADS1100.h`: the bus address held by the
`I2CInterface` base and the last value read, `m_value` (a `uint16_t`). -/
structure ADS1100 where
  m_addr : Nat
  m_value : Nat
  deriving DecidableEq, Repr

/-- The result of a member function of the converter. -/
structure ConverterOutcome where
  ret : Bool
  dev : ADS1100
  log : List BusOp
  deriving DecidableEq, Repr

namespace ADS1100

/-- Modelled from the spec: the member `ADS1100::read()`, of which the sources
hold only the declaration and its comment (`value = (Byte0 << 8) | Byte1`,
stored in `m_value`).  It "reads exactly 2 bytes from the device address;
interprets byte 0 as the most-significant byte and byte 1 as the
least-significant byte of a 16-bit unsigned value; stores the result as
last-read value; returns success iff the transfer returned at least 1 byte".
A byte the transport did not deliver keeps what the receive buffer `buffer`
held before the transfer. -/
def read (t : Transport) (d : ADS1100) (log : List BusOp) (buffer : Nat × Nat) :
    ConverterOutcome :=
  let reply := t.readAllBytes log d.m_addr 2
  let byte0 := PCA9548A.storeByte buffer.1 reply.data
  let byte1 := PCA9548A.storeByte buffer.2 reply.data.tail
  { ret := decide (reply.count > 0)
    dev := { d with m_value := ((byte0 <<< 8) ||| byte1) % 65536 }
    log := log ++ [BusOp.readReq d.m_addr 2] }

/-- The member `ADS1100::value()`: `return m_value;`, paired with the object
afterwards. -/
def value (d : ADS1100) : Nat × ADS1100 :=
  (d.m_value, d)

end ADS1100

/-! ## Some transports -/

/-- A transport that accepts every write and answers every read with the one
byte `b`. -/
def alwaysOk (b : Nat) : Transport :=
  { readAllBytes := fun _ _ _ => { count := 1, data := [b] }
    writeAllBytes := fun _ _ _ => 1 }

/-- A transport that answers every read with the two bytes `b0`, `b1`. -/
def twoBytes (b0 b1 : Nat) : Transport :=
  { readAllBytes := fun _ _ _ => { count := 2, data := [b0, b1] }
    writeAllBytes := fun _ _ _ => 1 }

/-- A transport on which nothing is ever transferred. -/
def neverOk : Transport :=
  { readAllBytes := fun _ _ _ => { count := 0, data := [] }
    writeAllBytes := fun _ _ _ => 0 }

open PCA9548A

/-! ## Eight-bit masks -/

theorem mask_lt (n : Nat) (hn : n < 8) : 1 <<< n < 256 := by
  rw [Nat.one_shiftLeft]
  calc 2 ^ n ≤ 2 ^ 7 := Nat.pow_le_pow_right (by decide) (by omega)
    _ < 256 := by decide

theorem mask_mod (n : Nat) (hn : n < 8) : (1 <<< n) % 256 = 1 <<< n :=
  Nat.mod_eq_of_lt (mask_lt n hn)

theorem or_mask_lt (r n : Nat) (hr : r < 256) (hn : n < 8) : r ||| 1 <<< n < 256 :=
  Nat.or_lt_two_pow (n := 8) hr (mask_lt n hn)

theorem and_lt (r m : Nat) (hr : r < 256) : r &&& m < 256 :=
  lt_of_le_of_lt Nat.and_le_left hr

theorem testBit_mask (n i : Nat) : (1 <<< n).testBit i = decide (i = n) := by
  rw [Nat.one_shiftLeft, Nat.testBit_two_pow]
  congr 1
  exact propext eq_comm

theorem testBit_or_mask (r n i : Nat) :
    (r ||| 1 <<< n).testBit i = (decide (i = n) || r.testBit i) := by
  rw [Nat.testBit_or, testBit_mask, Bool.or_comm]

theorem testBit_compl_mask (n i : Nat) (hn : n < 8) :
    (255 - 1 <<< n).testBit i = (decide (i < 8) && !decide (i = n)) := by
  have hlt : 2 ^ n < 2 ^ 8 := by
    have := mask_lt n hn
    rwa [Nat.one_shiftLeft] at this
  have h : 255 - 1 <<< n = 2 ^ 8 - (2 ^ n + 1) := by
    rw [Nat.one_shiftLeft]; omega
  rw [h, Nat.testBit_two_pow_sub_succ hlt, Nat.testBit_two_pow]
  congr 2
  simp [eq_comm]

theorem testBit_high (r i : Nat) (hr : r < 256) (hi : ¬ i < 8) : r.testBit i = false :=
  Nat.testBit_lt_two_pow (lt_of_lt_of_le hr (by
    calc 256 = 2 ^ 8 := by norm_num
      _ ≤ 2 ^ i := Nat.pow_le_pow_right (by decide) (by omega)))

theorem testBit_and_compl_mask (r n i : Nat) (hr : r < 256) (hn : n < 8) :
    (r &&& (255 - 1 <<< n)).testBit i = (!decide (i = n) && r.testBit i) := by
  rw [Nat.testBit_and, testBit_compl_mask n i hn]
  by_cases hi : i < 8
  · simp [hi, Bool.and_comm]
  · simp [testBit_high r i hr hi]

/-- The register value computed by `setChannel` for an in-range channel and an
eight-bit register, without the truncations. -/
theorem setChannel_reg (r n : Nat) (en : Bool) (hr : r < 256) (hn : n < 8) :
    (if en then (r ||| (1 <<< n) % 256) % 256 else (r &&& (255 - (1 <<< n) % 256)) % 256)
      = if en then r ||| 1 <<< n else r &&& (255 - 1 <<< n) := by
  rw [mask_mod n hn]
  cases en
  · simp only [Bool.false_eq_true, if_false]
    exact Nat.mod_eq_of_lt (and_lt r _ hr)
  · simp only [if_true]
    exact Nat.mod_eq_of_lt (or_mask_lt r n hr hn)

/-- Bit `i` of the register value computed by `setChannel`: bit `n` is `en`,
the others are those of `r`. -/
theorem setChannel_reg_testBit (r n i : Nat) (en : Bool) (hr : r < 256) (hn : n < 8) :
    (if en then r ||| 1 <<< n else r &&& (255 - 1 <<< n)).testBit i
      = if i = n then en else r.testBit i := by
  cases en
  · simp only [Bool.false_eq_true, if_false]
    rw [testBit_and_compl_mask r n i hr hn]
    by_cases h : i = n <;> simp [h]
  · simp only [if_true]
    rw [testBit_or_mask]
    by_cases h : i = n <;> simp [h]

/-! ## Unfolding the member functions -/

theorem setChannel_gt (t : Transport) (d : PCA9548A) (log : List BusOp) (n : Nat) (en : Bool)
    (hn : 8 < n) : setChannel t d log n en = { ret := false, dev := d, log := log } := by
  unfold setChannel
  rw [if_pos hn]

theorem setChannel_le (t : Transport) (d : PCA9548A) (log : List BusOp) (n : Nat) (en : Bool)
    (hn : n ≤ 8) :
    setChannel t d log n en =
      write t { d with m_ctrl_reg :=
        if en then (d.m_ctrl_reg ||| (1 <<< n) % 256) % 256
        else (d.m_ctrl_reg &&& (255 - (1 <<< n) % 256)) % 256 } log := by
  unfold setChannel
  rw [if_neg (by omega)]

/-- For a channel in `0..7` and an eight-bit register, `setChannel` is a
`write` of the register with bit `n` set or cleared. -/
theorem setChannel_lt (t : Transport) (d : PCA9548A) (log : List BusOp) (n : Nat) (en : Bool)
    (hn : n < 8) (hr : d.m_ctrl_reg < 256) :
    setChannel t d log n en =
      write t { d with m_ctrl_reg :=
        if en then d.m_ctrl_reg ||| 1 <<< n else d.m_ctrl_reg &&& (255 - 1 <<< n) } log := by
  rw [setChannel_le t d log n en (by omega), setChannel_reg _ n en hr hn]

theorem select_fail (t : Transport) (d : PCA9548A) (log : List BusOp) (n : Nat)
    (h : t.writeAllBytes log d.address [0] ≤ 0) :
    select t d log n =
      { ret := false, dev := { d with m_ctrl_reg := 0 },
        log := log ++ [BusOp.writeReq d.address [0]] } := by
  have hdec : decide (t.writeAllBytes log d.address [0] > 0) = false := by
    simp only [decide_eq_false_iff_not]; omega
  simp only [select, disableAll, write, address] at hdec ⊢
  simp [hdec]

theorem select_ok (t : Transport) (d : PCA9548A) (log : List BusOp) (n : Nat)
    (h : 0 < t.writeAllBytes log d.address [0]) :
    select t d log n =
      setChannel t { d with m_ctrl_reg := 0 } (log ++ [BusOp.writeReq d.address [0]]) n true := by
  have hdec : decide (t.writeAllBytes log d.address [0] > 0) = true := by
    simp only [decide_eq_true_eq]; omega
  simp only [select, disableAll, write, address] at hdec ⊢
  simp [hdec]

/-! ## `select`: exclusive routing -/

/-- C1: for every channel `n` in `0..7`, every prior shadow register and every
device address, when `select(n)` returns true the shadow register afterwards is
exactly `1 << n`: bit `n` is set and every other bit is clear; for `n = 3` this
is `0b00001000`. -/
theorem select_true_shadow (t : Transport) (d : PCA9548A) (log : List BusOp) (n : Nat)
    (hn : n < 8) (h : (select t d log n).ret = true) :
    (select t d log n).dev.m_ctrl_reg = 1 <<< n ∧
    (∀ i, (select t d log n).dev.m_ctrl_reg.testBit i = decide (i = n)) ∧
    (n = 3 → (select t d log n).dev.m_ctrl_reg = 0b00001000) := by
  have hreg : (select t d log n).dev.m_ctrl_reg = 1 <<< n := by
    by_cases hw : 0 < t.writeAllBytes log d.address [0]
    · rw [select_ok t d log n hw, setChannel_lt _ _ _ n true hn (by simp)]
      simp [write]
    · rw [select_fail t d log n (by omega)] at h
      simp at h
  refine ⟨hreg, fun i => ?_, fun h3 => ?_⟩
  · rw [hreg, testBit_mask]
  · rw [hreg, h3]; rfl

/-- Witness of C1: `select(3)` on an accepting transport, from the register
`0xFF`. -/
theorem select_true_shadow_witness :
    (3 < 8 ∧ (select (alwaysOk 0) ⟨0x70, 0xFF⟩ [] 3).ret = true) ∧
    (select (alwaysOk 0) ⟨0x70, 0xFF⟩ [] 3).dev.m_ctrl_reg = 0b00001000 :=
  ⟨⟨by decide, by decide⟩,
    (select_true_shadow (alwaysOk 0) ⟨0x70, 0xFF⟩ [] 3 (by decide) (by decide)).2.2 rfl⟩

/-- C2: when the disable-all write of `select(n)` fails (the transport reports
no byte transferred), `select` returns false, the disable-all write is the only
transaction issued (no enable write follows) and the shadow register is 0. -/
theorem select_disable_fails (t : Transport) (d : PCA9548A) (log : List BusOp) (n : Nat)
    (h : t.writeAllBytes log d.address [0] ≤ 0) :
    (select t d log n).ret = false ∧
    (select t d log n).log = log ++ [BusOp.writeReq d.address [0]] ∧
    (select t d log n).dev.m_ctrl_reg = 0 ∧
    (select t d log n).dev.m_addr = d.m_addr := by
  rw [select_fail t d log n h]
  exact ⟨rfl, rfl, rfl, rfl⟩

/-- Witness of C2: `select(5)` on a transport that transfers nothing, from the
register `0x21`. -/
theorem select_disable_fails_witness :
    neverOk.writeAllBytes [] (address ⟨0x72, 0x21⟩) [0] ≤ 0 ∧
    (select neverOk ⟨0x72, 0x21⟩ [] 5).ret = false ∧
    (select neverOk ⟨0x72, 0x21⟩ [] 5).log = [] ++ [BusOp.writeReq (address ⟨0x72, 0x21⟩) [0]] ∧
    (select neverOk ⟨0x72, 0x21⟩ [] 5).dev.m_ctrl_reg = 0 ∧
    (select neverOk ⟨0x72, 0x21⟩ [] 5).dev.m_addr = 0x72 :=
  ⟨by decide, select_disable_fails neverOk ⟨0x72, 0x21⟩ [] 5 (by decide)⟩

/-- C3: for every channel `n` in `0..7` and every prior shadow value, when the
transport accepts the writes, `select(n)` issues exactly two one-byte writes to
the device address, first the byte `0x00`, then the byte `1 << n`, and returns
the result of the second write.  Only the acceptance of the first write is
used, so the statement covers every transport that accepts all writes. -/
theorem select_two_writes (t : Transport) (d : PCA9548A) (log : List BusOp) (n : Nat)
    (hn : n < 8) (h : 0 < t.writeAllBytes log d.address [0]) :
    (select t d log n).log =
      log ++ [BusOp.writeReq d.address [0x00], BusOp.writeReq d.address [1 <<< n]] ∧
    (select t d log n).ret =
      decide (0 < t.writeAllBytes (log ++ [BusOp.writeReq d.address [0x00]])
        d.address [1 <<< n]) := by
  rw [select_ok t d log n h, setChannel_lt _ _ _ n true hn (by simp)]
  simp [write, address]

/-- Witness of C3: `select(6)` on an accepting transport. -/
theorem select_two_writes_witness :
    (6 < 8 ∧ 0 < (alwaysOk 0).writeAllBytes [] (address ⟨0x70, 0x81⟩) [0]) ∧
    (select (alwaysOk 0) ⟨0x70, 0x81⟩ [] 6).log =
      [BusOp.writeReq 0x70 [0x00], BusOp.writeReq 0x70 [0x40]] ∧
    (select (alwaysOk 0) ⟨0x70, 0x81⟩ [] 6).ret = true :=
  ⟨⟨by decide, by decide⟩,
    (select_two_writes (alwaysOk 0) ⟨0x70, 0x81⟩ [] 6 (by decide) (by decide)).1,
    by decide⟩

/-! ## `setChannel` -/

/-- C4, at the failing input: `setChannel(8, en)` passes the guard `n > 0x08`;
on an accepting transport it returns true and issues one write of the
(unchanged) register, where the claim requires a rejection without any bus
transaction.  Indices above 8 are rejected (`setChannel_gt`). -/
theorem setChannel_eight_not_rejected :
    setChannel (alwaysOk 0) ⟨0x70, 0x05⟩ [] 8 true =
      ⟨true, ⟨0x70, 0x05⟩, [BusOp.writeReq 0x70 [0x05]]⟩ ∧
    setChannel (alwaysOk 0) ⟨0x70, 0x05⟩ [] 8 false =
      ⟨true, ⟨0x70, 0x05⟩, [BusOp.writeReq 0x70 [0x05]]⟩ := by
  decide

/-- Clearing bit `n` after setting it is the same as clearing it. -/
theorem or_and_compl_mask (r n : Nat) (hr : r < 256) (hn : n < 8) :
    (r ||| 1 <<< n) &&& (255 - 1 <<< n) = r &&& (255 - 1 <<< n) := by
  apply Nat.eq_of_testBit_eq
  intro i
  rw [testBit_and_compl_mask _ n i (or_mask_lt r n hr hn) hn, testBit_or_mask,
    testBit_and_compl_mask r n i hr hn]
  by_cases h : i = n <;> simp [h]

/-- Clearing bit `n` gives back `r` exactly when bit `n` of `r` is clear. -/
theorem and_compl_mask_eq_self (r n : Nat) (hr : r < 256) (hn : n < 8) :
    r &&& (255 - 1 <<< n) = r ↔ r.testBit n = false := by
  constructor
  · intro h
    rw [← h, testBit_and_compl_mask r n n hr hn]
    simp
  · intro h
    apply Nat.eq_of_testBit_eq
    intro i
    rw [testBit_and_compl_mask r n i hr hn]
    by_cases hi : i = n
    · subst hi; simp [h]
    · simp [hi]

/-- Counterexample to C5 as stated: from the register `0b00001000`, on an
accepting transport, `setChannel(3, true)` then `setChannel(3, false)` both
succeed and leave the register `0`, not the prior value. -/
theorem setChannel_roundtrip_counterexample :
    (setChannel (alwaysOk 0) ⟨0x70, 0b00001000⟩ [] 3 true).ret = true ∧
    (setChannel (alwaysOk 0) (setChannel (alwaysOk 0) ⟨0x70, 0b00001000⟩ [] 3 true).dev
      (setChannel (alwaysOk 0) ⟨0x70, 0b00001000⟩ [] 3 true).log 3 false).ret = true ∧
    (setChannel (alwaysOk 0) (setChannel (alwaysOk 0) ⟨0x70, 0b00001000⟩ [] 3 true).dev
      (setChannel (alwaysOk 0) ⟨0x70, 0b00001000⟩ [] 3 true).log 3 false).dev.m_ctrl_reg
        ≠ 0b00001000 := by
  decide

/-- C5, amended: for every channel `n` in `0..7` and every eight-bit prior
shadow register `r`, `setChannel(n, true)` followed by `setChannel(n, false)`
leaves the shadow register equal to `r` with bit `n` cleared; this is `r`
when bit `n` of `r` was clear beforehand, and differs from `r` when it was set.
The transport is arbitrary, so this covers the case where every write
succeeds. -/
theorem setChannel_roundtrip (t : Transport) (d : PCA9548A) (log : List BusOp) (n : Nat)
    (hn : n < 8) (hr : d.m_ctrl_reg < 256) :
    (setChannel t (setChannel t d log n true).dev (setChannel t d log n true).log
      n false).dev.m_ctrl_reg = d.m_ctrl_reg &&& (255 - 1 <<< n) ∧
    (d.m_ctrl_reg.testBit n = false →
      (setChannel t (setChannel t d log n true).dev (setChannel t d log n true).log
        n false).dev.m_ctrl_reg = d.m_ctrl_reg) ∧
    (d.m_ctrl_reg.testBit n = true →
      (setChannel t (setChannel t d log n true).dev (setChannel t d log n true).log
        n false).dev.m_ctrl_reg ≠ d.m_ctrl_reg) := by
  have hfirst : (setChannel t d log n true).dev.m_ctrl_reg = d.m_ctrl_reg ||| 1 <<< n := by
    rw [setChannel_lt t d log n true hn hr]; simp [write]
  have hreg : (setChannel t (setChannel t d log n true).dev (setChannel t d log n true).log
      n false).dev.m_ctrl_reg = d.m_ctrl_reg &&& (255 - 1 <<< n) := by
    rw [setChannel_lt t _ _ n false hn (by rw [hfirst]; exact or_mask_lt _ n hr hn), hfirst]
    simp only [write, Bool.false_eq_true, if_false]
    exact or_and_compl_mask _ n hr hn
  refine ⟨hreg, fun hb => ?_, fun hb => ?_⟩
  · rw [hreg]; exact (and_compl_mask_eq_self _ n hr hn).2 hb
  · rw [hreg]
    intro heq
    rw [(and_compl_mask_eq_self _ n hr hn).1 heq] at hb
    exact Bool.false_ne_true hb

/-- Witness of C5 amended: channel 2 on the register `0b00010001`, whose bit 2
is clear, comes back to `0b00010001`. -/
theorem setChannel_roundtrip_witness :
    (2 < 8 ∧ (0b00010001 : Nat) < 256) ∧
    (setChannel (alwaysOk 0) (setChannel (alwaysOk 0) ⟨0x70, 0b00010001⟩ [] 2 true).dev
      (setChannel (alwaysOk 0) ⟨0x70, 0b00010001⟩ [] 2 true).log 2 false).dev.m_ctrl_reg
        = 0b00010001 :=
  ⟨⟨by decide, by decide⟩,
    (setChannel_roundtrip (alwaysOk 0) ⟨0x70, 0b00010001⟩ [] 2 (by decide) (by decide)).2.1
      (by decide)⟩

/-- C6: for every channel `n` in `0..7`, every eight-bit prior shadow value `r`
and every transport, `setChannel(n, en)` sets the shadow register to
`r | (1 << n)` when `en` is true and to `r & ~(1 << n)` when it is false, so
that bit `n` equals `en` and every other bit is that of `r`; it keeps the
address, issues exactly one one-byte write of the new value to the device
address and returns the result of that write. -/
theorem setChannel_spec (t : Transport) (d : PCA9548A) (log : List BusOp) (n : Nat)
    (en : Bool) (hn : n < 8) (hr : d.m_ctrl_reg < 256) :
    (setChannel t d log n en).dev.m_ctrl_reg =
      (if en then d.m_ctrl_reg ||| 1 <<< n else d.m_ctrl_reg &&& (255 - 1 <<< n)) ∧
    (∀ i, (setChannel t d log n en).dev.m_ctrl_reg.testBit i =
      if i = n then en else d.m_ctrl_reg.testBit i) ∧
    (setChannel t d log n en).dev.m_addr = d.m_addr ∧
    (setChannel t d log n en).log =
      log ++ [BusOp.writeReq d.address [(setChannel t d log n en).dev.m_ctrl_reg]] ∧
    (setChannel t d log n en).ret =
      decide (0 < t.writeAllBytes log d.address [(setChannel t d log n en).dev.m_ctrl_reg]) := by
  rw [setChannel_lt t d log n en hn hr]
  refine ⟨rfl, fun i => ?_, rfl, rfl, rfl⟩
  exact setChannel_reg_testBit _ n i en hr hn

/-- Witness of C6: enabling channel 4 on the register `0b00000011`. -/
theorem setChannel_spec_witness :
    (4 < 8 ∧ (0b00000011 : Nat) < 256) ∧
    (setChannel (alwaysOk 0) ⟨0x71, 0b00000011⟩ [] 4 true).dev.m_ctrl_reg
      = 0b00000011 ||| 1 <<< 4 :=
  ⟨⟨by decide, by decide⟩,
    (setChannel_spec (alwaysOk 0) ⟨0x71, 0b00000011⟩ [] 4 true (by decide) (by decide)).1⟩

/-- C7: for every channel `n` in `0..7` and every eight-bit prior shadow value,
when the hardware write inside `setChannel(n, en)` fails, `setChannel` returns
false and the shadow register holds the updated value all the same: bit `n`
equals `en`, the other bits are the prior ones; nothing is rolled back. -/
theorem setChannel_failed_write (t : Transport) (d : PCA9548A) (log : List BusOp) (n : Nat)
    (en : Bool) (hn : n < 8) (hr : d.m_ctrl_reg < 256)
    (hfail : t.writeAllBytes log d.address
      [if en then d.m_ctrl_reg ||| 1 <<< n else d.m_ctrl_reg &&& (255 - 1 <<< n)] ≤ 0) :
    (setChannel t d log n en).ret = false ∧
    (setChannel t d log n en).dev.m_ctrl_reg =
      (if en then d.m_ctrl_reg ||| 1 <<< n else d.m_ctrl_reg &&& (255 - 1 <<< n)) ∧
    (setChannel t d log n en).dev.m_ctrl_reg.testBit n = en ∧
    (∀ i, i ≠ n →
      (setChannel t d log n en).dev.m_ctrl_reg.testBit i = d.m_ctrl_reg.testBit i) := by
  rw [setChannel_lt t d log n en hn hr]
  refine ⟨?_, rfl, ?_, fun i hi => ?_⟩
  · simp only [write, address, decide_eq_false_iff_not] at hfail ⊢
    omega
  · show (if en then _ else _ : Nat).testBit n = en
    rw [setChannel_reg_testBit _ n n en hr hn, if_pos rfl]
  · show (if en then _ else _ : Nat).testBit i = _
    rw [setChannel_reg_testBit _ n i en hr hn, if_neg hi]

/-- Witness of C7: enabling channel 1 on a transport that transfers nothing
returns false and leaves `0b00000110` in the shadow register. -/
theorem setChannel_failed_write_witness :
    (1 < 8 ∧ (0b00000100 : Nat) < 256 ∧
      neverOk.writeAllBytes [] (address ⟨0x70, 0b00000100⟩)
        [if true then 0b00000100 ||| 1 <<< 1 else 0b00000100 &&& (255 - 1 <<< 1)] ≤ 0) ∧
    (setChannel neverOk ⟨0x70, 0b00000100⟩ [] 1 true).ret = false ∧
    (setChannel neverOk ⟨0x70, 0b00000100⟩ [] 1 true).dev.m_ctrl_reg = 0b00000110 :=
  ⟨⟨by decide, by decide, by decide⟩,
    (setChannel_failed_write neverOk ⟨0x70, 0b00000100⟩ [] 1 true (by decide) (by decide)
      (by decide)).1,
    (setChannel_failed_write neverOk ⟨0x70, 0b00000100⟩ [] 1 true (by decide) (by decide)
      (by decide)).2.1⟩

/-! ## Construction and raw register transfers -/

/-- C8: for every address `addr`, `PCA9548A(addr)` is bound to `addr` when
`0x70 ≤ addr ≤ 0x77` and to the default `0x70` otherwise, and its shadow
register is 0; `0x80` gives `0x70` and `0x74` gives `0x74`.  The constructor is
a total function: it has no failing outcome. -/
theorem ctor_spec (addr : Nat) :
    (ctor addr).m_addr = (if 0x70 ≤ addr ∧ addr ≤ 0x77 then addr else 0x70) ∧
    (ctor addr).m_ctrl_reg = 0 ∧
    ctor 0x80 = ⟨0x70, 0⟩ ∧
    ctor 0x74 = ⟨0x74, 0⟩ := by
  refine ⟨?_, rfl, by decide, by decide⟩
  simp only [ctor, setDeviceAddress, DEVICE_ADDRESS]
  by_cases h : addr < 0x70 ∨ addr > 0x77
  · rw [if_pos h, if_neg (by omega)]
  · rw [if_neg h, if_pos (by omega)]

/-- C9: `read()` issues exactly one request, for 1 byte, to the device
address; the byte delivered by the transport lands in the shadow register and
the address is kept.  It returns true exactly when the reported count is
positive, which for a transport that reports at most the one requested byte
is: exactly when 1 byte was transferred. -/
theorem read_spec (t : Transport) (d : PCA9548A) (log : List BusOp)
    (hc : (t.readAllBytes log d.address 1).count ≤ 1) :
    (read t d log).log = log ++ [BusOp.readReq d.address 1] ∧
    (read t d log).dev.m_addr = d.m_addr ∧
    (read t d log).dev.m_ctrl_reg =
      storeByte d.m_ctrl_reg (t.readAllBytes log d.address 1).data ∧
    (∀ b, b < 256 → (t.readAllBytes log d.address 1).data = [b] →
      (read t d log).dev.m_ctrl_reg = b) ∧
    ((read t d log).ret = true ↔ 0 < (t.readAllBytes log d.address 1).count) ∧
    ((read t d log).ret = true ↔ (t.readAllBytes log d.address 1).count = 1) := by
  refine ⟨rfl, rfl, rfl, fun b hb hdata => ?_, ?_, ?_⟩
  · simp only [PCA9548A.read, hdata, storeByte]
    exact Nat.mod_eq_of_lt hb
  · simp [PCA9548A.read]
  · simp only [PCA9548A.read, decide_eq_true_eq]
    omega

/-- Witness of C9: a read answered with the single byte `0xA5`. -/
theorem read_spec_witness :
    ((alwaysOk 0xA5).readAllBytes [] (address ⟨0x70, 0⟩) 1).count ≤ 1 ∧
    (read (alwaysOk 0xA5) ⟨0x70, 0⟩ []).log = [BusOp.readReq 0x70 1] ∧
    (read (alwaysOk 0xA5) ⟨0x70, 0⟩ []).dev.m_ctrl_reg = 0xA5 ∧
    (read (alwaysOk 0xA5) ⟨0x70, 0⟩ []).ret = true :=
  ⟨by decide,
    (read_spec (alwaysOk 0xA5) ⟨0x70, 0⟩ [] (by decide)).1,
    (read_spec (alwaysOk 0xA5) ⟨0x70, 0⟩ [] (by decide)).2.2.2.1 0xA5 (by decide) rfl,
    (read_spec (alwaysOk 0xA5) ⟨0x70, 0⟩ [] (by decide)).2.2.2.2.2.2 rfl⟩

/-- C10: `write()` issues exactly one write, of the one byte held in the
shadow register, to the device address, and leaves the register and the
address as they were.  It returns true exactly when the reported count is
positive, which for a transport that reports at most the one byte sent is:
exactly when 1 byte was transferred. -/
theorem write_spec (t : Transport) (d : PCA9548A) (log : List BusOp)
    (hc : t.writeAllBytes log d.address [d.m_ctrl_reg] ≤ 1) :
    (write t d log).log = log ++ [BusOp.writeReq d.address [d.m_ctrl_reg]] ∧
    (write t d log).dev = d ∧
    ((write t d log).ret = true ↔ 0 < t.writeAllBytes log d.address [d.m_ctrl_reg]) ∧
    ((write t d log).ret = true ↔ t.writeAllBytes log d.address [d.m_ctrl_reg] = 1) := by
  refine ⟨rfl, rfl, ?_, ?_⟩
  · simp [write]
  · simp only [write, decide_eq_true_eq]
    omega

/-- Witness of C10: a write of the register `0x12` on an accepting
transport. -/
theorem write_spec_witness :
    (alwaysOk 0).writeAllBytes [] (address ⟨0x73, 0x12⟩) [0x12] ≤ 1 ∧
    (write (alwaysOk 0) ⟨0x73, 0x12⟩ []).log = [BusOp.writeReq 0x73 [0x12]] ∧
    (write (alwaysOk 0) ⟨0x73, 0x12⟩ []).dev = ⟨0x73, 0x12⟩ ∧
    (write (alwaysOk 0) ⟨0x73, 0x12⟩ []).ret = true :=
  ⟨by decide,
    (write_spec (alwaysOk 0) ⟨0x73, 0x12⟩ [] (by decide)).1,
    (write_spec (alwaysOk 0) ⟨0x73, 0x12⟩ [] (by decide)).2.1,
    (write_spec (alwaysOk 0) ⟨0x73, 0x12⟩ [] (by decide)).2.2.2.2 rfl⟩

/-! ## Copies -/

/-- C11: a copy-constructed or assigned multiplexer has the address and the
shadow register of its source, so a copy taken after a successful `select(5)`
shows bit 5 set; a later `setChannel` or `select` on the copy leaves the
original object, its shadow register and its address, as it was. -/
theorem copy_isolation (t : Transport) (d self : PCA9548A) (log log2 : List BusOp)
    (n : Nat) (en : Bool) :
    ctorCopy d = d ∧
    assign self d = d ∧
    ((select t d log 5).ret = true →
      (copyConstruct (select t d log 5).dev).copy.m_ctrl_reg.testBit 5 = true ∧
      (copyConstruct (select t d log 5).dev).copy.m_ctrl_reg = 0b00100000) ∧
    (onCopy (fun c l => setChannel t c l n en) (copyConstruct d) log2).objs.original = d ∧
    (onCopy (fun c l => select t c l n) (copyConstruct d) log2).objs.original = d ∧
    (onCopy (fun c l => setChannel t c l n en) (copyConstruct d) log2).objs.copy
      = (setChannel t d log2 n en).dev ∧
    (onCopy (fun c l => select t c l n) (copyConstruct d) log2).objs.copy
      = (select t d log2 n).dev := by
  refine ⟨rfl, rfl, fun h => ?_, rfl, rfl, rfl, rfl⟩
  have hreg : (select t d log 5).dev.m_ctrl_reg = 1 <<< 5 := by
    by_cases hw : 0 < t.writeAllBytes log d.address [0]
    · rw [select_ok t d log 5 hw, setChannel_lt _ _ _ 5 true (by decide) (by simp)]
      simp [write]
    · rw [select_fail t d log 5 (by omega)] at h
      simp at h
  simp only [copyConstruct, ctorCopy, hreg]
  exact ⟨by decide, by decide⟩

/-- Witness of C11: after `select(5)` the copy holds `0b00100000`; `select(2)`
on the copy moves the copy to `0b00000100` and leaves the original at
`0b00100000`, address `0x70`. -/
theorem copy_isolation_witness :
    (select (alwaysOk 0) ⟨0x70, 0⟩ [] 5).ret = true ∧
    (copyConstruct (select (alwaysOk 0) ⟨0x70, 0⟩ [] 5).dev).copy.m_ctrl_reg = 0b00100000 ∧
    (onCopy (fun c l => select (alwaysOk 0) c l 2)
      (copyConstruct (select (alwaysOk 0) ⟨0x70, 0⟩ [] 5).dev) []).objs
        = ⟨⟨0x70, 0b00100000⟩, ⟨0x70, 0b00000100⟩⟩ :=
  ⟨by decide,
    ((copy_isolation (alwaysOk 0) ⟨0x70, 0⟩ ⟨0x70, 0⟩ [] [] 2 true).2.2.1 (by decide)).2,
    by decide⟩

/-! ## The converter -/

/-- Two bytes side by side: the high byte shifted by eight, or-ed with the low
byte, is `b0 * 256 + b1`. -/
theorem shift_or_bytes (b0 b1 : Nat) (h1 : b1 < 256) :
    b0 <<< 8 ||| b1 = b0 * 256 + b1 := by
  have h := Nat.mul_add_lt_is_or (i := 8) (b := b1) (by simpa using h1) b0
  rw [Nat.shiftLeft_eq, Nat.mul_comm b0 (2 ^ 8), ← h]

/-- C12: for every pair of bytes `b0`, `b1` delivered by a full 2-byte
transfer, `ADS1100::read()` stores `(b0 << 8) | b1`, byte 0 most significant,
as the last-read value; `value()` afterwards returns `b0 * 256 + b1` and
leaves the object as it is; for the bytes `[0x12, 0x34]` the value is
`0x1234`. -/
theorem ads1100_read_value (t : Transport) (d : ADS1100) (log : List BusOp)
    (buffer : Nat × Nat) (b0 b1 : Nat) (h0 : b0 < 256) (h1 : b1 < 256)
    (hfull : t.readAllBytes log d.m_addr 2 = { count := 2, data := [b0, b1] }) :
    (ADS1100.read t d log buffer).dev.m_value = b0 <<< 8 ||| b1 ∧
    (ADS1100.value (ADS1100.read t d log buffer).dev).1 = b0 * 256 + b1 ∧
    (ADS1100.value (ADS1100.read t d log buffer).dev).2 = (ADS1100.read t d log buffer).dev ∧
    (ADS1100.read t d log buffer).ret = true ∧
    (ADS1100.read t d log buffer).log = log ++ [BusOp.readReq d.m_addr 2] ∧
    (b0 = 0x12 → b1 = 0x34 →
      (ADS1100.value (ADS1100.read t d log buffer).dev).1 = 0x1234) := by
  have hval : (ADS1100.read t d log buffer).dev.m_value = b0 * 256 + b1 := by
    simp only [ADS1100.read, hfull, storeByte, List.tail_cons, Nat.mod_eq_of_lt h0,
      Nat.mod_eq_of_lt h1]
    rw [shift_or_bytes b0 b1 h1]
    exact Nat.mod_eq_of_lt (by omega)
  refine ⟨by rw [hval, shift_or_bytes b0 b1 h1], hval, rfl, ?_, rfl, fun e0 e1 => ?_⟩
  · simp [ADS1100.read, hfull]
  · show (ADS1100.read t d log buffer).dev.m_value = 0x1234
    rw [hval, e0, e1]

/-- Witness of C12: the bytes `[0x12, 0x34]` give the value `0x1234`. -/
theorem ads1100_read_value_witness :
    ((0x12 : Nat) < 256 ∧ (0x34 : Nat) < 256 ∧
      (twoBytes 0x12 0x34).readAllBytes [] 0x48 2 = { count := 2, data := [0x12, 0x34] }) ∧
    (ADS1100.value (ADS1100.read (twoBytes 0x12 0x34) ⟨0x48, 0⟩ [] (0xFF, 0xFF)).dev).1
      = 0x1234 :=
  ⟨⟨by decide, by decide, rfl⟩,
    (ads1100_read_value (twoBytes 0x12 0x34) ⟨0x48, 0⟩ [] (0xFF, 0xFF) 0x12 0x34
      (by decide) (by decide) rfl).2.2.2.2.2 rfl rfl⟩

/-! ## The liveness probe -/

/-- C13: `isConnected()` is `read()`: for every state and every transport it
gives the same outcome, that is the same single request of 1 byte to the
device address, the same boolean, true exactly when the reported number of
bytes is not zero (a negative report counts for no byte), and the same shadow
register afterwards, which holds whatever byte the transport delivered. -/
theorem isConnected_is_read (t : Transport) (d : PCA9548A) (log : List BusOp) :
    isConnected t d log = PCA9548A.read t d log ∧
    (isConnected t d log).log = log ++ [BusOp.readReq d.address 1] ∧
    ((isConnected t d log).ret = true ↔ 0 < (t.readAllBytes log d.address 1).count) ∧
    ((isConnected t d log).ret = true ↔ (t.readAllBytes log d.address 1).count.toNat ≠ 0) ∧
    (isConnected t d log).dev.m_ctrl_reg =
      storeByte d.m_ctrl_reg (t.readAllBytes log d.address 1).data ∧
    (isConnected t d log).dev.m_addr = d.m_addr := by
  refine ⟨rfl, rfl, ?_, ?_, rfl, rfl⟩
  · simp [isConnected, PCA9548A.read]
  · simp only [isConnected, PCA9548A.read, decide_eq_true_eq]
    omega

/-! ## `disableAll` against eight bit operations -/

/-- The value written by a `setChannel` call on an in-range channel is again
an eight-bit value. -/
theorem setChannel_reg_lt (r n : Nat) (en : Bool) (hr : r < 256) (hn : n < 8) :
    (if en then r ||| 1 <<< n else r &&& (255 - 1 <<< n)) < 256 := by
  cases en
  · simpa using and_lt r _ hr
  · simpa using or_mask_lt r n hr hn

/-- The shadow register after `setChannel` on an in-range channel. -/
theorem setChannel_dev_reg (t : Transport) (d : PCA9548A) (log : List BusOp) (n : Nat)
    (en : Bool) (hn : n < 8) (hr : d.m_ctrl_reg < 256) :
    (setChannel t d log n en).dev.m_ctrl_reg =
      if en then d.m_ctrl_reg ||| 1 <<< n else d.m_ctrl_reg &&& (255 - 1 <<< n) := by
  rw [setChannel_lt t d log n en hn hr]
  rfl

/-- Turning off a list of in-range channels one by one: the address is kept,
the register stays an eight-bit value whose bits are those of the prior value
outside the list and clear inside it, one write is logged per channel, the
last of them carries the final register, and all calls succeed on an accepting
transport. -/
theorem setChannelEach_off (t : Transport) (ns : List Nat) :
    ∀ (d : PCA9548A) (log : List BusOp), (∀ n ∈ ns, n < 8) → d.m_ctrl_reg < 256 →
      (setChannelEach t false ns d log).dev.m_addr = d.m_addr ∧
      (setChannelEach t false ns d log).dev.m_ctrl_reg < 256 ∧
      (∀ i, (setChannelEach t false ns d log).dev.m_ctrl_reg.testBit i =
        (d.m_ctrl_reg.testBit i && !decide (i ∈ ns))) ∧
      (∃ ws, (setChannelEach t false ns d log).log = log ++ ws ∧ ws.length = ns.length) ∧
      (ns ≠ [] → (setChannelEach t false ns d log).log.getLast? =
        some (BusOp.writeReq d.address [(setChannelEach t false ns d log).dev.m_ctrl_reg])) ∧
      ((∀ h a b, 0 < t.writeAllBytes h a b) → (setChannelEach t false ns d log).ret = true) := by
  induction ns with
  | nil =>
    intro d log _ hr
    simp [setChannelEach, hr]
  | cons n ns ih =>
    intro d log hns hr
    have hn : n < 8 := hns n (List.mem_cons_self _ _)
    have hns2 : ∀ m ∈ ns, m < 8 := fun m hm => hns m (List.mem_cons_of_mem _ hm)
    have h1 : setChannel t d log n false =
        write t { d with m_ctrl_reg := d.m_ctrl_reg &&& (255 - 1 <<< n) } log := by
      rw [setChannel_lt t d log n false hn hr]
      simp
    have hr1 : (setChannel t d log n false).dev.m_ctrl_reg < 256 := by
      rw [h1]; exact and_lt _ _ hr
    obtain ⟨ihA, ihR, ihB, ⟨ws, ihL, ihLen⟩, ihLast, ihRet⟩ :=
      ih (setChannel t d log n false).dev (setChannel t d log n false).log hns2 hr1
    simp only [setChannelEach]
    refine ⟨?_, ihR, fun i => ?_, ?_, fun _ => ?_, fun hacc => ?_⟩
    · rw [ihA, h1]; rfl
    · rw [ihB i, h1]
      show ((d.m_ctrl_reg &&& (255 - 1 <<< n)).testBit i && _) = _
      rw [testBit_and_compl_mask _ n i hr hn]
      by_cases hin : i = n
      · simp [hin]
      · by_cases hmem : i ∈ ns <;> simp [hin, hmem]
    · refine ⟨BusOp.writeReq d.address [d.m_ctrl_reg &&& (255 - 1 <<< n)] :: ws, ?_, ?_⟩
      · rw [ihL, h1]; simp [write, address]
      · simp [ihLen]
    · by_cases hnil : ns = []
      · subst hnil
        simp only [setChannelEach, h1, write]
        exact List.getLast?_concat _
      · rw [ihLast hnil, h1]; rfl
    · rw [ihRet hacc, Bool.and_true, h1]
      simp only [write, decide_eq_true_eq]
      exact hacc _ _ _

/-- C14: for every eight-bit prior shadow value, `disableAll()` (shadow forced
to 0, then one write) and `setChannel(i, false)` for every `i` in `0..7` end
with the same shadow register, 0, the same address and the same last byte
written to the device, `0x00`; the first logs one bus write, the second
eight; when the transport accepts all writes both succeed. -/
theorem disableAll_vs_bitwise (t : Transport) (d : PCA9548A) (log : List BusOp)
    (hr : d.m_ctrl_reg < 256) (hacc : ∀ h a b, 0 < t.writeAllBytes h a b) :
    (disableAll t d log).dev.m_ctrl_reg = 0 ∧
    (disableAllBitwise t d log).dev.m_ctrl_reg = 0 ∧
    (disableAllBitwise t d log).dev = (disableAll t d log).dev ∧
    (disableAll t d log).log = log ++ [BusOp.writeReq d.address [0x00]] ∧
    (disableAll t d log).log.getLast? = some (BusOp.writeReq d.address [0x00]) ∧
    (disableAllBitwise t d log).log.getLast? = some (BusOp.writeReq d.address [0x00]) ∧
    (∃ ws, (disableAllBitwise t d log).log = log ++ ws ∧ ws.length = 8) ∧
    (disableAll t d log).ret = true ∧
    (disableAllBitwise t d log).ret = true := by
  obtain ⟨hA, hR, hB, hL, hLast, hRet⟩ :=
    setChannelEach_off t [0, 1, 2, 3, 4, 5, 6, 7] d log (by decide) hr
  have hzero : (disableAllBitwise t d log).dev.m_ctrl_reg = 0 := by
    apply Nat.eq_of_testBit_eq
    intro i
    show (setChannelEach t false [0, 1, 2, 3, 4, 5, 6, 7] d log).dev.m_ctrl_reg.testBit i = _
    rw [hB i, Nat.zero_testBit]
    by_cases hi : i < 8
    · have : i ∈ [0, 1, 2, 3, 4, 5, 6, 7] := by
        simp only [List.mem_cons, List.mem_singleton]
        omega
      simp [this]
    · simp [testBit_high _ i hr hi]
  have hdev : (disableAllBitwise t d log).dev = ⟨d.m_addr, 0⟩ := by
    have hA2 : (disableAllBitwise t d log).dev.m_addr = d.m_addr := hA
    cases hd : (disableAllBitwise t d log).dev with
    | mk a r =>
      rw [hd] at hzero hA2
      simp only at hzero hA2
      rw [hzero, hA2]
  have hlast := hLast (by simp)
  refine ⟨rfl, hzero, ?_, rfl, ?_, ?_, hL, ?_, hRet hacc⟩
  · rw [hdev]; rfl
  · exact List.getLast?_concat _
  · have hz : (setChannelEach t false [0, 1, 2, 3, 4, 5, 6, 7] d log).dev.m_ctrl_reg = 0 :=
      hzero
    rw [hz] at hlast
    exact hlast
  · simp only [disableAll, write, decide_eq_true_eq]
    exact hacc _ _ _

/-- Witness of C14: from the register `0xA7` on an accepting transport both
ways end at 0; the bitwise way logs eight writes. -/
theorem disableAll_vs_bitwise_witness :
    ((0xA7 : Nat) < 256 ∧ ∀ h a b, 0 < (alwaysOk 0).writeAllBytes h a b) ∧
    (disableAllBitwise (alwaysOk 0) ⟨0x70, 0xA7⟩ []).dev.m_ctrl_reg = 0 ∧
    (disableAllBitwise (alwaysOk 0) ⟨0x70, 0xA7⟩ []).log.length = 8 ∧
    (disableAll (alwaysOk 0) ⟨0x70, 0xA7⟩ []).log.length = 1 :=
  ⟨⟨by decide, fun _ _ _ => Int.one_pos⟩,
    (disableAll_vs_bitwise (alwaysOk 0) ⟨0x70, 0xA7⟩ [] (by decide)
      (fun _ _ _ => Int.one_pos)).2.1,
    by decide, by decide⟩

/-! ## The channel index 8 and beyond -/

/-- The register computed by `setChannel` for `n = 8`: the mask is 0, an
eight-bit register comes out as it went in. -/
theorem setChannel_reg_eight (r : Nat) (en : Bool) (hr : r < 256) :
    (if en then (r ||| (1 <<< 8) % 256) % 256 else (r &&& (255 - (1 <<< 8) % 256)) % 256)
      = r := by
  have hmask : (1 <<< 8) % 256 = 0 := by decide
  have hand : r &&& 255 = r := by
    have h := Nat.and_pow_two_sub_one_eq_mod r 8
    rw [Nat.mod_eq_of_lt (by simpa using hr)] at h
    simpa using h
  rw [hmask]
  cases en
  · simp only [Bool.false_eq_true, if_false, Nat.sub_zero, hand]
    exact Nat.mod_eq_of_lt hr
  · simp only [if_true, Nat.or_zero]
    exact Nat.mod_eq_of_lt hr

/-- C15: for `n = 8` the guard `n > 0x08` does not reject; the eight-bit mask
`1 << 8` is 0, so for every eight-bit prior shadow value `r` and either enable
flag the object stays as it was, exactly one bus write of the byte `r` is
issued, and the return value is the result of that write, true when the
transport accepts it. -/
theorem setChannel_eight_passes (t : Transport) (d : PCA9548A) (log : List BusOp)
    (en : Bool) (hr : d.m_ctrl_reg < 256) :
    ¬ (8 > 0x08) ∧
    (1 <<< 8) % 256 = 0 ∧
    (setChannel t d log 8 en).dev = d ∧
    (setChannel t d log 8 en).log = log ++ [BusOp.writeReq d.address [d.m_ctrl_reg]] ∧
    (setChannel t d log 8 en).ret =
      decide (0 < t.writeAllBytes log d.address [d.m_ctrl_reg]) ∧
    (0 < t.writeAllBytes log d.address [d.m_ctrl_reg] →
      (setChannel t d log 8 en).ret = true) := by
  have h8 : setChannel t d log 8 en = write t d log := by
    rw [setChannel_le t d log 8 en (le_refl 8), setChannel_reg_eight _ en hr]
  rw [h8]
  refine ⟨by decide, by decide, rfl, rfl, rfl, fun h => ?_⟩
  simpa [write] using h

/-- Witness of C15: `setChannel(8, true)` on the register `0x5A`, transport
accepting. -/
theorem setChannel_eight_passes_witness :
    ((0x5A : Nat) < 256 ∧ 0 < (alwaysOk 0).writeAllBytes [] (address ⟨0x70, 0x5A⟩) [0x5A]) ∧
    (setChannel (alwaysOk 0) ⟨0x70, 0x5A⟩ [] 8 true).dev = ⟨0x70, 0x5A⟩ ∧
    (setChannel (alwaysOk 0) ⟨0x70, 0x5A⟩ [] 8 true).ret = true :=
  ⟨⟨by decide, by decide⟩,
    (setChannel_eight_passes (alwaysOk 0) ⟨0x70, 0x5A⟩ [] true (by decide)).2.2.1,
    (setChannel_eight_passes (alwaysOk 0) ⟨0x70, 0x5A⟩ [] true (by decide)).2.2.2.2.2
      (by decide)⟩

/-- C16: for every prior shadow value, when the transport accepts every write,
`select(8)` returns true, leaves the shadow register at 0, no bit set, and has
written the byte `0x00` twice and nothing else: a successful `select` does
not imply an enabled channel. -/
theorem select_eight (t : Transport) (d : PCA9548A) (log : List BusOp)
    (hacc : ∀ h a b, 0 < t.writeAllBytes h a b) :
    (select t d log 8).ret = true ∧
    (select t d log 8).dev.m_ctrl_reg = 0 ∧
    (∀ i, (select t d log 8).dev.m_ctrl_reg.testBit i = false) ∧
    (select t d log 8).dev.m_addr = d.m_addr ∧
    (select t d log 8).log =
      log ++ [BusOp.writeReq d.address [0x00], BusOp.writeReq d.address [0x00]] := by
  have h8 : select t d log 8 =
      write t { d with m_ctrl_reg := 0 } (log ++ [BusOp.writeReq d.address [0]]) := by
    rw [select_ok t d log 8 (hacc _ _ _), setChannel_le _ _ _ 8 true (le_refl 8),
      setChannel_reg_eight _ true (by simp)]
  rw [h8]
  refine ⟨?_, rfl, fun i => Nat.zero_testBit i, rfl, ?_⟩
  · simp only [write, decide_eq_true_eq]
    exact hacc _ _ _
  · simp [write, address]

/-- Witness of C16: `select(8)` from the register `0xC3`. -/
theorem select_eight_witness :
    (∀ h a b, 0 < (alwaysOk 0).writeAllBytes h a b) ∧
    (select (alwaysOk 0) ⟨0x70, 0xC3⟩ [] 8).ret = true ∧
    (select (alwaysOk 0) ⟨0x70, 0xC3⟩ [] 8).dev.m_ctrl_reg = 0 :=
  ⟨fun _ _ _ => Int.one_pos,
    (select_eight (alwaysOk 0) ⟨0x70, 0xC3⟩ [] (fun _ _ _ => Int.one_pos)).1,
    (select_eight (alwaysOk 0) ⟨0x70, 0xC3⟩ [] (fun _ _ _ => Int.one_pos)).2.1⟩

/-- C17: for every `n > 8` and every prior shadow value `r`, when the
disable-all write succeeds, `select(n)` returns false, yet the shadow register
is 0, which is not `r` unless `r` was 0, and exactly one bus write, of the
byte `0x00`, was issued: the rejected index has disabled every channel. -/
theorem select_rejected_not_atomic (t : Transport) (d : PCA9548A) (log : List BusOp)
    (n : Nat) (hn : 8 < n) (h : 0 < t.writeAllBytes log d.address [0]) :
    (select t d log n).ret = false ∧
    (select t d log n).dev.m_ctrl_reg = 0 ∧
    (d.m_ctrl_reg ≠ 0 → (select t d log n).dev.m_ctrl_reg ≠ d.m_ctrl_reg) ∧
    (select t d log n).dev.m_addr = d.m_addr ∧
    (select t d log n).log = log ++ [BusOp.writeReq d.address [0x00]] := by
  rw [select_ok t d log n h, setChannel_gt _ _ _ n true hn]
  exact ⟨rfl, rfl, fun hne => Ne.symm hne, rfl, rfl⟩

/-- Witness of C17: `select(9)` from the register `0x0F` on an accepting
transport. -/
theorem select_rejected_not_atomic_witness :
    (8 < 9 ∧ 0 < (alwaysOk 0).writeAllBytes [] (address ⟨0x70, 0x0F⟩) [0]) ∧
    (select (alwaysOk 0) ⟨0x70, 0x0F⟩ [] 9).ret = false ∧
    (select (alwaysOk 0) ⟨0x70, 0x0F⟩ [] 9).dev.m_ctrl_reg = 0 ∧
    (select (alwaysOk 0) ⟨0x70, 0x0F⟩ [] 9).dev.m_ctrl_reg ≠ 0x0F :=
  ⟨⟨by decide, by decide⟩,
    (select_rejected_not_atomic (alwaysOk 0) ⟨0x70, 0x0F⟩ [] 9 (by decide) (by decide)).1,
    (select_rejected_not_atomic (alwaysOk 0) ⟨0x70, 0x0F⟩ [] 9 (by decide) (by decide)).2.1,
    (select_rejected_not_atomic (alwaysOk 0) ⟨0x70, 0x0F⟩ [] 9 (by decide) (by decide)).2.2.1
      (by decide)⟩

/-! ## Algebra of `setChannel` on the shadow register -/

/-- Bit `i` of the shadow register after `setChannel` on an in-range
channel. -/
theorem setChannel_testBit (t : Transport) (d : PCA9548A) (log : List BusOp) (n : Nat)
    (en : Bool) (hn : n < 8) (hr : d.m_ctrl_reg < 256) (i : Nat) :
    (setChannel t d log n en).dev.m_ctrl_reg.testBit i =
      if i = n then en else d.m_ctrl_reg.testBit i := by
  rw [setChannel_dev_reg t d log n en hn hr]
  exact setChannel_reg_testBit _ n i en hr hn

/-- The shadow register after `setChannel` on an in-range channel is an
eight-bit value. -/
theorem setChannel_dev_reg_lt (t : Transport) (d : PCA9548A) (log : List BusOp) (n : Nat)
    (en : Bool) (hn : n < 8) (hr : d.m_ctrl_reg < 256) :
    (setChannel t d log n en).dev.m_ctrl_reg < 256 := by
  rw [setChannel_dev_reg t d log n en hn hr]
  exact setChannel_reg_lt _ n en hr hn

/-- C18: on the shadow register `setChannel` is idempotent and
order-independent: for all channels `n`, `m` in `0..7`, all enable flags, every
eight-bit prior shadow value and every transport (so whether or not the writes
succeed), `setChannel(n, a)` twice leaves the register of `setChannel(n, a)`
once, and for `n ≠ m`, `setChannel(n, a)` then `setChannel(m, b)` leaves the
register of `setChannel(m, b)` then `setChannel(n, a)`. -/
theorem setChannel_idem_comm (t : Transport) (d : PCA9548A) (log : List BusOp)
    (n m : Nat) (a b : Bool) (hn : n < 8) (hm : m < 8) (hr : d.m_ctrl_reg < 256) :
    (setChannel t (setChannel t d log n a).dev (setChannel t d log n a).log
      n a).dev.m_ctrl_reg = (setChannel t d log n a).dev.m_ctrl_reg ∧
    (n ≠ m →
      (setChannel t (setChannel t d log n a).dev (setChannel t d log n a).log
        m b).dev.m_ctrl_reg =
      (setChannel t (setChannel t d log m b).dev (setChannel t d log m b).log
        n a).dev.m_ctrl_reg) := by
  have hrn := setChannel_dev_reg_lt t d log n a hn hr
  have hrm := setChannel_dev_reg_lt t d log m b hm hr
  constructor
  · apply Nat.eq_of_testBit_eq
    intro i
    rw [setChannel_testBit t _ _ n a hn hrn i, setChannel_testBit t d log n a hn hr i]
    by_cases h : i = n <;> simp [h]
  · intro hne
    apply Nat.eq_of_testBit_eq
    intro i
    rw [setChannel_testBit t _ _ m b hm hrn i, setChannel_testBit t _ _ n a hn hrm i,
      setChannel_testBit t d log n a hn hr i, setChannel_testBit t d log m b hm hr i]
    by_cases h1 : i = n
    · have h2 : ¬ i = m := fun h => hne (h1.symm.trans h)
      simp [h1, h2, hne]
    · simp [h1]

/-- Witness of C18: channels 1 (on) and 6 (off) from the register
`0b01000001`, on a transport where every write fails. -/
theorem setChannel_idem_comm_witness :
    (1 < 8 ∧ 6 < 8 ∧ (0b01000001 : Nat) < 256 ∧ 1 ≠ 6) ∧
    (setChannel neverOk (setChannel neverOk ⟨0x70, 0b01000001⟩ [] 1 true).dev
      (setChannel neverOk ⟨0x70, 0b01000001⟩ [] 1 true).log 1 true).dev.m_ctrl_reg
        = (setChannel neverOk ⟨0x70, 0b01000001⟩ [] 1 true).dev.m_ctrl_reg ∧
    (setChannel neverOk (setChannel neverOk ⟨0x70, 0b01000001⟩ [] 1 true).dev
      (setChannel neverOk ⟨0x70, 0b01000001⟩ [] 1 true).log 6 false).dev.m_ctrl_reg
        = (setChannel neverOk (setChannel neverOk ⟨0x70, 0b01000001⟩ [] 6 false).dev
          (setChannel neverOk ⟨0x70, 0b01000001⟩ [] 6 false).log 1 true).dev.m_ctrl_reg :=
  ⟨⟨by decide, by decide, by decide, by decide⟩,
    (setChannel_idem_comm neverOk ⟨0x70, 0b01000001⟩ [] 1 6 true false (by decide) (by decide)
      (by decide)).1,
    (setChannel_idem_comm neverOk ⟨0x70, 0b01000001⟩ [] 1 6 true false (by decide) (by decide)
      (by decide)).2 (by decide)⟩

end smrtobj
